import Mathlib

/-!
Shallow embedding of `drf_json_api_utils/factory.py` (repository
`drf-json-api-utils`) and proofs about the claims of its specification.

Conventions of the embedding:
* Python strings are `String`, Python ints are `Int`, Python lists are `List`,
  Python dicts are association lists (`List (String × _)`) with first-match
  lookup and replace-or-append assignment, mirroring CPython dict semantics
  for the small dicts that appear here.
* Host-framework objects that the code merely stores and passes around
  (model classes, querysets, permission classes, callback functions) are
  elements of an abstract type parameter `Obj`: the code under verification
  never inspects them.
* Python values produced by `ast.literal_eval` and JSON response bodies are
  modelled by the inductive type `PyVal`.
* Code that can raise is embedded in `Except String`; code with no `raise`
  statement is embedded as a total function.
-/

namespace DrfJsonApiUtils

/-- Python/JSON values: the results of `ast.literal_eval` and the
response-body dictionaries built by the handlers in `factory.py`. -/
inductive PyVal where
  | null : PyVal
  | bool : Bool → PyVal
  | int : Int → PyVal
  | str : String → PyVal
  | arr : List PyVal → PyVal
  | obj : List (String × PyVal) → PyVal
deriving Repr

mutual

/-- Structural equality test on `PyVal` (Python `==` on these values). -/
def PyVal.beq : PyVal → PyVal → Bool
  | .null, .null => true
  | .bool a, .bool b => a == b
  | .int a, .int b => a == b
  | .str a, .str b => a == b
  | .arr a, .arr b => PyVal.beqList a b
  | .obj a, .obj b => PyVal.beqPairs a b
  | _, _ => false

/-- Elementwise equality of `PyVal` lists. -/
def PyVal.beqList : List PyVal → List PyVal → Bool
  | [], [] => true
  | a :: as_, b :: bs => PyVal.beq a b && PyVal.beqList as_ bs
  | _, _ => false

/-- Elementwise equality of keyed `PyVal` lists. -/
def PyVal.beqPairs : List (String × PyVal) → List (String × PyVal) → Bool
  | [], [] => true
  | a :: as_, b :: bs => (a.1 == b.1 && PyVal.beq a.2 b.2) && PyVal.beqPairs as_ bs
  | _, _ => false

end

/-- `factory.py` line 34, `FILTER_REGEX`:
`re.compile(r'filter\[(?P<field>[\w_\-]+)(?P<op>\.[\w_\-]+)?\]', re.IGNORECASE)`.
Character class `[\w_\-]` (ASCII fragment; the query-string keys the library
sees are ASCII). -/
def isWordChar (c : Char) : Bool :=
  c.isAlphanum || c == '_' || c == '-'

/-- Consume an exact sequence of characters from the front of a list,
returning the remainder on success. -/
def dropExact : List Char → List Char → Option (List Char)
  | [], rest => some rest
  | p :: ps, c :: cs => if c == p then dropExact ps cs else none
  | _ :: _, [] => none

/-- `FILTER_REGEX.match(key)` (`factory.py` line 660), embedded as a
deterministic parser.  `re.match` anchors at the start of the string only,
so trailing characters after the closing `]` are ignored.  On success it
returns the two named groups: `field`, and `op` — note that the `op` group
of the regex is `(?P<op>\.[\w_\-]+)?`, so when present it INCLUDES the
leading dot, exactly as `match.groupdict()['op']` does in the source.
Maximal-munch is equivalent to the regex's backtracking here because the
`field`/`op` character class is disjoint from both `.` and `]`. -/
def filterRegexMatch (key : String) : Option (String × Option String) :=
  match dropExact ("filter[").toList key.toList with
  | none => none
  | some rest =>
    let f := rest.takeWhile isWordChar
    let rest1 := rest.dropWhile isWordChar
    if f.isEmpty then none else
    match rest1 with
    | ']' :: _ => some (String.mk f, none)
    | '.' :: rest2 =>
      let o := rest2.takeWhile isWordChar
      let rest3 := rest2.dropWhile isWordChar
      if o.isEmpty then none else
      match rest3 with
      | ']' :: _ => some (String.mk f, some (String.mk ('.' :: o)))
      | _ => none
    | _ => none

/-- `factory.py` lines 35–52, `FILTER_MAP`. -/
def FILTER_MAP : List (String × String) := [
  ("is_null", "is_null"),
  ("is_not_null", "is_not_null"),
  ("eq", "=="),
  ("ne", "!="),
  ("gt", ">"),
  ("lt", "<"),
  ("gte", ">="),
  ("gle", "<="),
  ("contains", "like"),
  ("icontains", "ilike"),
  ("not_icontains", "not_ilike"),
  ("not_contains", "not_like"),
  ("in", "in"),
  ("not_in", "not_in"),
  ("any", "any"),
  ("not_any", "not_any")
]

/-- `FILTER_MAP.get(match.groupdict()['op'], '==')` (`factory.py` line 667):
the `op` group may be `None` (no `.op` part in the key), and `dict.get`
falls back to `'=='` whenever the key — `None` or a string — is absent. -/
def filterMapGet (opGroup : Option String) : String :=
  ((opGroup.bind (fun s => FILTER_MAP.lookup s)).getD ("=="))

/-- One element of the `filters` list built by `_list`
(`factory.py` lines 666–668). -/
structure FilterEntry where
  field : String
  op : String
  value : PyVal
deriving Repr

/-- `try: value = ast.literal_eval(value) except: pass`
(`factory.py` lines 661–664).  `ast.literal_eval` is Python standard
library, outside this repository; it is abstracted as a parameter
`leval : String → Option PyVal`, where `none` stands for the call raising.
The bare `except: pass` keeps the original raw string in that case and lets
no exception escape. -/
def evalValue (leval : String → Option PyVal) (v : String) : PyVal :=
  match leval v with
  | some w => w
  | none => PyVal.str v

/-- Processing of a single query parameter by the loop in `_list`
(`factory.py` lines 659–668): the value is literal-evaluated first
(with silent fallback), then a filter entry is appended only when the key
matches `FILTER_REGEX`. -/
def processParam (leval : String → Option PyVal) (kv : String × String) :
    Option FilterEntry :=
  match filterRegexMatch kv.1 with
  | some fo => some { field := fo.1, op := filterMapGet fo.2, value := evalValue leval kv.2 }
  | none => none

/-- The whole `filters` list built by `_list` from the query parameters
(`factory.py` lines 658–668). -/
def listFilters (leval : String → Option PyVal) (params : List (String × String)) :
    List FilterEntry :=
  params.filterMap (processParam leval)

/-- Modelled from the spec: the module `json_api_spec_http_methods` is not
under `src/`.  `factory.py` imports from it the method names `HTTP_GET`,
`HTTP_POST`, `HTTP_PATCH`, `HTTP_DELETE` and the list `HTTP_ALL` of all
supported HTTP methods (spec §7: configuration-time validation of
"invalid HTTP method lists").  The names are the upper-case HTTP verbs:
`_build` lower-cases them with `.lower()` before use as `http_method_names`. -/
def HTTP_GET : String := "GET"

/-- Modelled from the spec: see `HTTP_GET`. -/
def HTTP_POST : String := "POST"

/-- Modelled from the spec: see `HTTP_GET`. -/
def HTTP_PATCH : String := "PATCH"

/-- Modelled from the spec: see `HTTP_GET`. -/
def HTTP_DELETE : String := "DELETE"

/-- Modelled from the spec: see `HTTP_GET`.  The list of all supported
HTTP methods. -/
def HTTP_ALL : List String := [HTTP_GET, HTTP_POST, HTTP_PATCH, HTTP_DELETE]

/-- Modelled from the spec: the module `lookups.py` is not under `src/`
(spec §7: configuration-time validation of "invalid filter lookup names").
`factory.py` references its members `EXACT`, `IN`, `LT`, `LTE`, `GT`, `GTE`
and the collection `ALL` of every supported lookup name; the lookups are
Django-style query lookup names. -/
def lookups_EXACT : String := "exact"

/-- Modelled from the spec: see `lookups_EXACT`.  The collection of all
supported filter lookup names. -/
def lookups_ALL : List String :=
  ["exact", "iexact", "in", "gt", "gte", "lt", "lte", "contains", "icontains", "isnull"]

/-- Modelled from the spec: `types.py` is not under `src/`.  `Filter` is the
record stored by `add_filter` with the named fields passed at
`factory.py` line 172. -/
structure Filter (Obj : Type) where
  field : String
  lookups : List String
  transform_value : Option Obj
deriving Repr

/-- Modelled from the spec: `types.py` is not under `src/`.  Record stored
by `add_computed_filter` (`factory.py` line 178). -/
structure ComputedFilter (Obj : Type) where
  field : String
  filter_func : Obj
  filter_type : Filter Obj
deriving Repr

/-- Modelled from the spec: `types.py` is not under `src/`.  Record stored
by `add_custom_field` (`factory.py` line 222). -/
structure CustomField (Obj : Type) where
  name : String
  callback : Option Obj
deriving Repr

/-- Modelled from the spec: `types.py` is not under `src/`.  Record stored
by `add_relation` (`factory.py` line 189). -/
structure Relation where
  field : String
  resource_name : String
  many : Bool
  primary_key_name : Option String
  required : Bool
  api_version : String
deriving Repr, DecidableEq

/-- Modelled from the spec: `types.py` is not under `src/`.  Element of the
`related` sequence of `add_generic_relation` (`factory.py` lines 209–212). -/
structure RelatedResource where
  resource_name : String
  api_version : String
deriving Repr, DecidableEq

/-- Modelled from the spec: `types.py` is not under `src/`.  Record stored
by `add_generic_relation` (`factory.py` line 215). -/
structure GenericRelation where
  field : String
  related : List RelatedResource
  many : Bool
  required : Bool
deriving Repr, DecidableEq

/-- `s.replace(old, '')` for a one-character pattern: the only uses of
`str.replace` in `factory.py` are `.replace('.', '').replace('-', '')`
(lines 98, 574 and relatives), which delete every occurrence of the
character. -/
def removeChar (s : String) (c : Char) : String :=
  String.mk (s.toList.filter (fun x => !(x == c)))

/-- A Python dict keyed by a bool (the builder dicts keyed by
`limit_to_on_retrieve`): at most one entry per key. -/
structure BoolDict (α : Type) where
  atFalse : Option α
  atTrue : Option α
deriving Repr, DecidableEq

/-- `d[b]` when present (`b in d` iff the result is `some`). -/
def BoolDict.get (d : BoolDict α) (b : Bool) : Option α :=
  if b then d.atTrue else d.atFalse

/-- `d[b] = v`. -/
def BoolDict.set (d : BoolDict α) (b : Bool) (v : α) : BoolDict α :=
  if b then { d with atTrue := some v } else { d with atFalse := some v }

/-- The empty dict `{}`. -/
def BoolDict.empty : BoolDict α := { atFalse := none, atTrue := none }

/-- Python dict assignment `d[k] = v` on a string-keyed dict modelled as an
association list: replace the existing entry, else append. -/
def dictSet (d : List (String × α)) (k : String) (v : α) : List (String × α) :=
  match d with
  | [] => [(k, v)]
  | (k', v') :: rest => if k' == k then (k, v) :: rest else (k', v') :: dictSet rest k v

/-- The configuration state created by `JsonApiModelViewBuilder.__init__`
(`factory.py` lines 78–124).  `Obj` is an abstract type of host-framework
objects (the model class, querysets, permission/authentication classes and
callback functions): the code stores them without inspecting them. -/
structure JsonApiModelViewBuilder (Obj : Type) where
  model : Obj
  fields : BoolDict (List String)
  filters : List (String × Filter Obj)
  computed_filters : List (String × ComputedFilter Obj)
  relations : BoolDict (List Relation)
  generic_relations : BoolDict (List GenericRelation)
  custom_fields : BoolDict (List (CustomField Obj))
  api_version : String
  url_api_version : String
  primary_key_name : String
  allowed_methods : List String
  resource_name : String
  related_limit : Int
  permission_classes : List Obj
  authentication_classes : List Obj
  before_create_callback : Option Obj
  after_create_callback : Option Obj
  after_get_callback : Option Obj
  before_update_callback : Option Obj
  after_update_callback : Option Obj
  before_delete_callback : Option Obj
  after_delete_callback : Option Obj
  before_list_callback : Option Obj
  after_list_callback : Option Obj
  before_raw_response : Option Obj
  expose_related_views : Bool
  is_admin : Bool
  queryset : Obj
  spice_queryset : Option Obj
  include_plugins : List String
  plugin_options : List (String × Obj)

namespace JsonApiModelViewBuilder

/-- `__validate_http_methods` (`factory.py` lines 126–131): raises when any
entry of the list is not a supported HTTP method. -/
def validateHttpMethods (limit_to_http_methods : List String) : Except String Unit :=
  if limit_to_http_methods.any (fun method => !(HTTP_ALL.contains method)) then
    .error ("Cannot limit fields to HTTP Method of types: " ++
      toString (limit_to_http_methods.filter (fun method => !(HTTP_ALL.contains method))))
  else
    .ok ()

/-- `JsonApiModelViewBuilder.__init__` (`factory.py` lines 78–124).
`__validate_http_methods` is its first statement, before any attribute is
assigned.  The two host-side lookups of the constructor are passed in as
values: `model_objects` stands for `model.objects` (line 119) and
`db_table_last` for `model.objects.model._meta.db_table.split('_')[-1]`
(line 102). -/
def init (Obj : Type) (model : Obj)
    (primary_key_name : Option String) (resource_name : Option String)
    (api_version : String) (allowed_methods : List String)
    (permission_classes : Option (List Obj)) (authentication_classes : Option (List Obj))
    (queryset : Option Obj) (permitted_objects : Option Obj)
    (include_plugins : Option (List String)) (plugin_options : Option (List (String × Obj)))
    (expose_related_views : Bool)
    (model_objects : Obj) (db_table_last : String) :
    Except String (JsonApiModelViewBuilder Obj) :=
  match validateHttpMethods allowed_methods with
  | .error e => .error e
  | .ok _ => .ok {
      model := model
      fields := BoolDict.empty
      filters := []
      computed_filters := []
      relations := BoolDict.empty
      generic_relations := BoolDict.empty
      custom_fields := BoolDict.empty
      api_version := removeChar (removeChar api_version ('.')) ('-')
      url_api_version := "v" ++ api_version
      primary_key_name := primary_key_name.getD ("id")
      allowed_methods := allowed_methods
      resource_name := resource_name.getD db_table_last
      related_limit := 100
      permission_classes := permission_classes.getD []
      authentication_classes := authentication_classes.getD []
      before_create_callback := none
      after_create_callback := none
      after_get_callback := none
      before_update_callback := none
      after_update_callback := none
      before_delete_callback := none
      after_delete_callback := none
      before_list_callback := none
      after_list_callback := none
      before_raw_response := none
      expose_related_views := expose_related_views
      is_admin := false
      queryset := match queryset with
        | none => model_objects
        | some q => q
      spice_queryset := permitted_objects
      include_plugins := include_plugins.getD []
      plugin_options := plugin_options.getD [] }

/-- `__warn_if_method_not_available` (`factory.py` lines 133–137): the
result is `true` exactly when `LOGGER.warning` is called, i.e. when the
method is not in `self._allowed_methods`.  Nothing is raised. -/
def warnIfMethodNotAvailable (st : JsonApiModelViewBuilder Obj) (method : String) : Bool :=
  !(st.allowed_methods.contains method)

/-- `add_filter` (`factory.py` lines 163–173): default lookups `(EXACT,)`;
raises (before any assignment to `self._filters`) when some lookup is not
in `lookups.ALL`; otherwise stores the `Filter` under `name`. -/
def add_filter (st : JsonApiModelViewBuilder Obj) (name : String)
    (field : Option String) (lookups : Option (List String)) (transform_value : Option Obj) :
    Except String (JsonApiModelViewBuilder Obj) :=
  let lookups := match lookups with
    | none => [lookups_EXACT]
    | some l => l
  if lookups.any (fun lookup => !(lookups_ALL.contains lookup)) then
    .error ("Filter lookups are invalid: " ++
      toString (lookups.filter (fun lookup => !(lookups_ALL.contains lookup))))
  else
    let f : Filter Obj :=
      { field := field.getD name, lookups := lookups, transform_value := transform_value }
    .ok { st with filters := dictSet st.filters name f }

/-- `before_create` (`factory.py` lines 237–240): stores the callback, then
warns (second component `true` iff a warning is logged).  Total: never
raises. -/
def before_create (st : JsonApiModelViewBuilder Obj) (cb : Option Obj) :
    JsonApiModelViewBuilder Obj × Bool :=
  ({ st with before_create_callback := cb }, warnIfMethodNotAvailable st HTTP_POST)

/-- `after_create` (`factory.py` lines 242–245). -/
def after_create (st : JsonApiModelViewBuilder Obj) (cb : Option Obj) :
    JsonApiModelViewBuilder Obj × Bool :=
  ({ st with after_create_callback := cb }, warnIfMethodNotAvailable st HTTP_POST)

/-- `after_get` (`factory.py` lines 247–250). -/
def after_get (st : JsonApiModelViewBuilder Obj) (cb : Option Obj) :
    JsonApiModelViewBuilder Obj × Bool :=
  ({ st with after_get_callback := cb }, warnIfMethodNotAvailable st HTTP_GET)

/-- `before_update` (`factory.py` lines 252–255). -/
def before_update (st : JsonApiModelViewBuilder Obj) (cb : Option Obj) :
    JsonApiModelViewBuilder Obj × Bool :=
  ({ st with before_update_callback := cb }, warnIfMethodNotAvailable st HTTP_PATCH)

/-- `after_update` (`factory.py` lines 257–260). -/
def after_update (st : JsonApiModelViewBuilder Obj) (cb : Option Obj) :
    JsonApiModelViewBuilder Obj × Bool :=
  ({ st with after_update_callback := cb }, warnIfMethodNotAvailable st HTTP_PATCH)

/-- `before_delete` (`factory.py` lines 262–265). -/
def before_delete (st : JsonApiModelViewBuilder Obj) (cb : Option Obj) :
    JsonApiModelViewBuilder Obj × Bool :=
  ({ st with before_delete_callback := cb }, warnIfMethodNotAvailable st HTTP_DELETE)

/-- `after_delete` (`factory.py` lines 267–270). -/
def after_delete (st : JsonApiModelViewBuilder Obj) (cb : Option Obj) :
    JsonApiModelViewBuilder Obj × Bool :=
  ({ st with after_delete_callback := cb }, warnIfMethodNotAvailable st HTTP_DELETE)

/-- `before_list` (`factory.py` lines 272–276). -/
def before_list (st : JsonApiModelViewBuilder Obj) (cb : Option Obj) :
    JsonApiModelViewBuilder Obj × Bool :=
  ({ st with before_list_callback := cb }, warnIfMethodNotAvailable st HTTP_GET)

/-- `after_list` (`factory.py` lines 278–281). -/
def after_list (st : JsonApiModelViewBuilder Obj) (cb : Option Obj) :
    JsonApiModelViewBuilder Obj × Bool :=
  ({ st with after_list_callback := cb }, warnIfMethodNotAvailable st HTTP_GET)

/-- `fields` (`factory.py` lines 139–144): creates the dict entry for the
`limit_to_on_retrieve` key when absent, then extends it with the given
field names. -/
def fields_method (st : JsonApiModelViewBuilder Obj) (fields : List String)
    (limit_to_on_retrieve : Bool) : JsonApiModelViewBuilder Obj :=
  let extended := ((st.fields.get limit_to_on_retrieve).getD []) ++ fields
  { st with fields := st.fields.set limit_to_on_retrieve extended }

/-- The effect on one of the four `limit_to_on_retrieve`-keyed dicts of the
serializer-construction loop in `_build` (`factory.py` lines 330–344).
In the `limit_to_on_retrieve = True` iteration the source binds the list
object stored in the dict (`fields = self._fields[True]`, no copy) and then
calls `fields.extend(self._fields[False])`, which mutates the stored list
in place.  When the `True` key is absent, a fresh local `[]` is extended
instead and the dict is untouched. -/
def extendRetrieveEntry (m : BoolDict (List α)) : BoolDict (List α) :=
  match m.atTrue with
  | some l => { m with atTrue := some (l ++ ((m.get false).getD [])) }
  | none => m

/-- The effect of `_build` (`factory.py` lines 325–552) on the builder's own
state when called through `get_urls` (so `ignore_serializer = False`).
Apart from the serializer-construction loop, `_build` only reads `self`
(the history/admin plugin paths operate on `deepcopy(self)`), so the whole
state change is the in-place extension of the `True` entries of the four
per-view-type dicts. -/
def buildStateEffect (st : JsonApiModelViewBuilder Obj) : JsonApiModelViewBuilder Obj :=
  { st with
    fields := extendRetrieveEntry st.fields
    custom_fields := extendRetrieveEntry st.custom_fields
    relations := extendRetrieveEntry st.relations
    generic_relations := extendRetrieveEntry st.generic_relations }

end JsonApiModelViewBuilder

/-- `get_dict_by_methods` (`factory.py` lines 55–72): builds the
action-dispatch dict for `as_view`, keeping only the entries whose HTTP
method appears in `allowed_http_methods`. -/
def get_dict_by_methods (view_type : String) (allowed_http_methods : List String) :
    List (String × String) :=
  if view_type == "get" then
    (if allowed_http_methods.contains HTTP_GET then [(("get"), ("retrieve"))] else []) ++
    (if allowed_http_methods.contains HTTP_PATCH then [(("patch"), ("update"))] else []) ++
    (if allowed_http_methods.contains HTTP_DELETE then [(("delete"), ("destroy"))] else [])
  else if view_type == "list" then
    (if allowed_http_methods.contains HTTP_GET then [(("get"), ("list"))] else []) ++
    (if allowed_http_methods.contains HTTP_POST then [(("post"), ("create"))] else [])
  else if view_type == "relation" then
    (if allowed_http_methods.contains HTTP_GET then [(("get"), ("retrieve_related"))] else [])
  else
    []

/-- Round a rational to an integer, ties to the even neighbour (the
IEEE-754 default rounding used by Python floats). -/
def roundHalfEven (y : ℚ) : ℤ :=
  if Int.fract y < 1 / 2 then ⌊y⌋
  else if 1 / 2 < Int.fract y then ⌊y⌋ + 1
  else if ⌊y⌋ % 2 = 0 then ⌊y⌋ else ⌊y⌋ + 1

/-- The IEEE-754 binary64 value nearest to a rational, ties to even, with
gradual underflow (the exponent of the rounding quantum is clamped at the
subnormal range, quantum `2 ^ (-1074)`).  This is the value CPython's
int/int true division produces for every quotient below the overflow
threshold `2 ^ 1024` (overflow and division by zero raise in Python; the
claims about pagination all presuppose a positive page size and a finite
quotient, so those two raising paths are outside every statement below). -/
def rnd53 (q : ℚ) : ℚ :=
  if q = 0 then 0
  else
    (if q < 0 then (-1 : ℚ) else 1) *
      ((roundHalfEven (|q| * (2 : ℚ) ^ (52 - max (Int.log 2 |q|) (-1022))) : ℤ) : ℚ) *
      (2 : ℚ) ^ (max (Int.log 2 |q|) (-1022) - 52)

/-- The configuration state created by `JsonApiResourceViewBuilder.__init__`
(`factory.py` lines 560–587).  Note line 573: `self._raw_items = not raw_items`
stores the NEGATION of the constructor argument. -/
structure JsonApiResourceViewBuilder (Obj : Type) where
  allowed_methods : List String
  resource_name : Option String
  raw_items : Bool
  api_version : String
  url_api_version : String
  unique_identifier : String
  permission_classes : List Obj
  authentication_classes : List Obj
  on_create_callback : Option Obj
  on_update_callback : Option Obj
  on_delete_callback : Option Obj
  on_list_callback : Option Obj
  on_get_callback : Option Obj
  before_raw_response : Option Obj
  is_admin : Bool
  page_size : Int
  only_callbacks : Bool

namespace JsonApiResourceViewBuilder

/-- `JsonApiResourceViewBuilder.__init__` (`factory.py` lines 560–587).
A total function: unlike `JsonApiModelViewBuilder.__init__`, it contains no
validation and no `raise`, so construction always succeeds and stores
`allowed_methods` as given. -/
def init (Obj : Type) (action_name : Option String) (api_version : String)
    (unique_identifier : String) (allowed_methods : List String)
    (permission_classes : Option (List Obj)) (authentication_classes : Option (List Obj))
    (raw_items : Bool) (is_admin : Bool) (only_callbacks : Bool) (page_size : Int) :
    JsonApiResourceViewBuilder Obj :=
  { allowed_methods := allowed_methods
    resource_name := action_name
    raw_items := !raw_items
    api_version := removeChar (removeChar api_version ('.')) ('-')
    url_api_version := "v" ++ api_version
    unique_identifier := unique_identifier
    permission_classes := permission_classes.getD []
    authentication_classes := authentication_classes.getD []
    on_create_callback := none
    on_update_callback := none
    on_delete_callback := none
    on_list_callback := none
    on_get_callback := none
    before_raw_response := none
    is_admin := is_admin
    page_size := page_size
    only_callbacks := only_callbacks }

/-- `__warn_if_method_not_available` (`factory.py` lines 589–593): `true`
exactly when `LOGGER.warning` is called.  Nothing is raised. -/
def warnIfMethodNotAvailable (st : JsonApiResourceViewBuilder Obj) (method : String) : Bool :=
  !(st.allowed_methods.contains method)

/-- `on_create` (`factory.py` lines 595–599): stores the callback, then
warns.  Total: never raises. -/
def on_create (st : JsonApiResourceViewBuilder Obj) (cb : Option Obj) :
    JsonApiResourceViewBuilder Obj × Bool :=
  ({ st with on_create_callback := cb }, warnIfMethodNotAvailable st HTTP_POST)

/-- `on_update` (`factory.py` lines 601–604). -/
def on_update (st : JsonApiResourceViewBuilder Obj) (cb : Option Obj) :
    JsonApiResourceViewBuilder Obj × Bool :=
  ({ st with on_update_callback := cb }, warnIfMethodNotAvailable st HTTP_PATCH)

/-- `on_delete` (`factory.py` lines 606–609). -/
def on_delete (st : JsonApiResourceViewBuilder Obj) (cb : Option Obj) :
    JsonApiResourceViewBuilder Obj × Bool :=
  ({ st with on_delete_callback := cb }, warnIfMethodNotAvailable st HTTP_DELETE)

/-- `on_list` (`factory.py` lines 611–615). -/
def on_list (st : JsonApiResourceViewBuilder Obj) (cb : Option Obj) :
    JsonApiResourceViewBuilder Obj × Bool :=
  ({ st with on_list_callback := cb }, warnIfMethodNotAvailable st HTTP_GET)

/-- `on_get` (`factory.py` lines 617–620). -/
def on_get (st : JsonApiResourceViewBuilder Obj) (cb : Option Obj) :
    JsonApiResourceViewBuilder Obj × Bool :=
  ({ st with on_get_callback := cb }, warnIfMethodNotAvailable st HTTP_GET)

/-- Rendering of `self._resource_name` inside an f-string: Python prints
`None` for the missing action name. -/
def resourceNameStr (st : JsonApiResourceViewBuilder Obj) : String :=
  match st.resource_name with
  | none => "None"
  | some s => s

/-- `self._resource_name` as a JSON value (the `'type'` entry of wrapped
items): `None` becomes JSON null. -/
def resourceNameVal (st : JsonApiResourceViewBuilder Obj) : PyVal :=
  match st.resource_name with
  | none => PyVal.null
  | some s => PyVal.str s

/-- The wrapped item `{'id': identifier, 'type': self._resource_name,
'attributes': data}` built by the `create`/`update`/`get` handlers
(`factory.py` lines 642, 652, 701). -/
def wrapItem (st : JsonApiResourceViewBuilder Obj) (identifier : PyVal) (data : PyVal) : PyVal :=
  PyVal.obj [(("id"), identifier), (("type"), resourceNameVal st), (("attributes"), data)]

/-- Response body of the `create` handler (`factory.py` lines 646–654) on
the `self._on_create_callback is not None` branch, as a function of the
data and identifier the callback returned. -/
def createBody (st : JsonApiResourceViewBuilder Obj) (data : PyVal) (identifier : PyVal) : PyVal :=
  if st.raw_items then wrapItem st identifier data
  else PyVal.obj [(("data"), data)]

/-- Response body of the `update` handler (`factory.py` lines 635–644) on
the callback branch. -/
def updateBody (st : JsonApiResourceViewBuilder Obj) (identifier : PyVal) (data : PyVal) : PyVal :=
  if st.raw_items then wrapItem st identifier data
  else PyVal.obj [(("data"), data)]

/-- Response body of the `get` handler (`factory.py` lines 695–703) on the
callback branch: the unwrapped case returns the callback's data directly. -/
def getBody (st : JsonApiResourceViewBuilder Obj) (identifier : PyVal) (data : PyVal) : PyVal :=
  if st.raw_items then wrapItem st identifier data
  else data

/-- `pages = math.ceil(count / self._page_size)` (`factory.py` line 675):
Python evaluates `count / page_size` as an IEEE-754 binary64 division —
CPython's int/int true division returns the correctly rounded double of
the exact quotient — and `math.ceil` of a double is exact.  Embedded as
the exact ceiling of the correctly rounded 53-bit value `rnd53`.  (For
`page_size = 0` Python raises `ZeroDivisionError`; the embedding's
division by zero yields `0`.  Quotients at or above `2 ^ 1024` raise
`OverflowError` in Python; the embedding returns their rounded value.
Both paths are outside every claim, which presuppose a positive page size
and a pagination-sized count.) -/
def pagesOf (st : JsonApiResourceViewBuilder Obj) (count : Int) : Int :=
  ⌈rnd53 ((count : ℚ) / (st.page_size : ℚ))⌉

/-- The link strings `f"/api/{self._resource_name}?page_number={n}"`
(`factory.py` lines 677–680). -/
def apiLink (st : JsonApiResourceViewBuilder Obj) (n : Int) : String :=
  "/api/" ++ resourceNameStr st ++ "?page_number=" ++ toString n

/-- `included if included else []` (`factory.py` line 685): the callback's
`included` value is `None` or a list; Python truthiness sends `None` and
the empty list to `[]`. -/
def includedValue (included : Option (List PyVal)) : List PyVal :=
  match included with
  | none => []
  | some l => if l.isEmpty then [] else l

/-- One entry of the `'data'` list of the list envelope (`factory.py`
lines 681–684): each callback item (a dict) is wrapped as
`{'id': item.get(self._unique_identifier, None), 'type': ..., 'attributes': item}`
when `self._raw_items`, else passed through. -/
def listItem (st : JsonApiResourceViewBuilder Obj) (item : List (String × PyVal)) : PyVal :=
  if st.raw_items then
    PyVal.obj [(("id"), (item.lookup st.unique_identifier).getD PyVal.null),
               (("type"), resourceNameVal st),
               (("attributes"), PyVal.obj item)]
  else PyVal.obj item

/-- The JSON:API list envelope built by `_list` (`factory.py` lines
669–693) on the `self._on_list_callback is not None` branch, as a function
of the requested page and of the `data`, `included` and `count` the
callback returned (`page` is `int(params.get('page_number', 1))`). -/
def listEnvelope (st : JsonApiResourceViewBuilder Obj) (page : Int)
    (data : List (List (String × PyVal))) (included : Option (List PyVal)) (count : Int) :
    PyVal :=
  let pages := pagesOf st count
  PyVal.obj [
    (("links"), PyVal.obj [
      (("first"), PyVal.str (apiLink st 1)),
      (("last"), PyVal.str (apiLink st pages)),
      (("next"), if page = pages ∨ pages ≤ 1 then PyVal.null
                 else PyVal.str (apiLink st (page + 1))),
      (("previous"), if page ≤ 1 then PyVal.null
                     else PyVal.str (apiLink st (page - 1)))
    ]),
    (("data"), PyVal.arr (data.map (fun item => listItem st item))),
    (("included"), PyVal.arr (includedValue included)),
    (("meta"), PyVal.obj [
      (("pagination"), PyVal.obj [
        (("page"), PyVal.int page),
        (("pages"), PyVal.int pages),
        (("count"), PyVal.int count)
      ])
    ])
  ]

end JsonApiResourceViewBuilder

/-- Keys of a JSON object value, in order (observation function used to
state properties of the response envelopes). -/
def objKeys : PyVal → List String
  | .obj fs => fs.map Prod.fst
  | _ => []

/-- Entry of a JSON object value at a key (observation function). -/
def objGet : PyVal → String → Option PyVal
  | .obj fs, k => fs.lookup k
  | _, _ => none

/-- A freshly constructed `JsonApiModelViewBuilder` over `Obj := Unit`
(model and `model.objects` are the unit object, resource name `people`,
all HTTP methods allowed). -/
def initialModelBuilder : Except String (JsonApiModelViewBuilder Unit) :=
  JsonApiModelViewBuilder.init Unit () none (some ("people")) ("") HTTP_ALL
    none none none none none none false () ("people")

/-- The builder of `initialModelBuilder` after
`.fields(['name']).fields(['age'], limit_to_on_retrieve=True)`:
`_fields = {False: ['name'], True: ['age']}`. -/
def exampleModelBuilder : JsonApiModelViewBuilder Unit :=
  JsonApiModelViewBuilder.fields_method
    (JsonApiModelViewBuilder.fields_method
      (initialModelBuilder.toOption.get (by decide)) [("name")] false)
    [("age")] true

/-- A concrete `JsonApiResourceViewBuilder` over `Obj := Unit`:
action name `acts`, only GET allowed, `raw_items=False` (the default),
`page_size = 2`. -/
def exampleResourceBuilder : JsonApiResourceViewBuilder Unit :=
  JsonApiResourceViewBuilder.init Unit (some ("acts")) ("") ("id") [HTTP_GET]
    none none false false false 2

/-- A concrete `JsonApiResourceViewBuilder` over `Obj := Unit` with
`page_size = 1`. -/
def unitPageResourceBuilder : JsonApiResourceViewBuilder Unit :=
  JsonApiResourceViewBuilder.init Unit (some ("acts")) ("") ("id") [HTTP_GET]
    none none false false false 1

/-! ## Helper lemmas -/

/-- `extendRetrieveEntry` never changes the `False` (list-view) entry. -/
theorem extendRetrieveEntry_atFalse (m : BoolDict (List α)) :
    (JsonApiModelViewBuilder.extendRetrieveEntry m).atFalse = m.atFalse := by
  cases h : m.atTrue <;> simp [JsonApiModelViewBuilder.extendRetrieveEntry, h]

/-- `extendRetrieveEntry` appends the `False` entry to the `True` entry
when the latter is present. -/
theorem extendRetrieveEntry_atTrue (m : BoolDict (List α)) :
    (JsonApiModelViewBuilder.extendRetrieveEntry m).atTrue =
      m.atTrue.map (fun l => l ++ (m.atFalse.getD [])) := by
  cases h : m.atTrue <;>
    simp [JsonApiModelViewBuilder.extendRetrieveEntry, BoolDict.get, h]

/-- The model-builder warning predicate holds exactly for methods missing
from `allowed_methods`. -/
theorem modelWarn_iff {Obj : Type} (st : JsonApiModelViewBuilder Obj) (m : String) :
    JsonApiModelViewBuilder.warnIfMethodNotAvailable st m = true ↔
      m ∉ st.allowed_methods := by
  simp [JsonApiModelViewBuilder.warnIfMethodNotAvailable]

/-- The resource-builder warning predicate holds exactly for methods
missing from `allowed_methods`. -/
theorem resourceWarn_iff {Obj : Type} (st : JsonApiResourceViewBuilder Obj) (m : String) :
    JsonApiResourceViewBuilder.warnIfMethodNotAvailable st m = true ↔
      m ∉ st.allowed_methods := by
  simp [JsonApiResourceViewBuilder.warnIfMethodNotAvailable]

theorem roundHalfEven_intCast (n : ℤ) : roundHalfEven ((n : ℚ)) = n := by
  simp [roundHalfEven, Int.fract_intCast, Int.floor_intCast]

theorem roundHalfEven_le_ceil (y : ℚ) : roundHalfEven y ≤ ⌈y⌉ := by
  have hfr : Int.fract y = y - (⌊y⌋ : ℚ) := rfl
  unfold roundHalfEven
  split_ifs with h1 h2 h3
  · exact Int.floor_le_ceil y
  · have : (⌊y⌋ : ℚ) < y := by rw [hfr] at h2; linarith
    exact Int.lt_ceil.mpr this
  · exact Int.floor_le_ceil y
  · have hfr2 : Int.fract y = 1 / 2 := le_antisymm (not_lt.1 h2) (not_lt.1 h1)
    have : (⌊y⌋ : ℚ) < y := by rw [hfr] at hfr2; linarith
    exact Int.lt_ceil.mpr this

theorem sub_half_le_roundHalfEven (y : ℚ) : y - 1 / 2 ≤ ((roundHalfEven y : ℤ) : ℚ) := by
  have hfr : Int.fract y = y - (⌊y⌋ : ℚ) := rfl
  have hlt1 : Int.fract y < 1 := Int.fract_lt_one y
  unfold roundHalfEven
  split_ifs with h1 h2 h3
  · rw [hfr] at h1; linarith
  · push_cast; rw [hfr] at hlt1; linarith
  · have hfr2 : Int.fract y = 1 / 2 := le_antisymm (not_lt.1 h2) (not_lt.1 h1)
    rw [hfr] at hfr2; linarith
  · push_cast; rw [hfr] at hlt1; linarith

theorem rnd53_of_pos (q : ℚ) (hq : 0 < q) (he : -1022 ≤ Int.log 2 q) :
    rnd53 q =
      ((roundHalfEven (q * (2 : ℚ) ^ (52 - Int.log 2 q)) : ℤ) : ℚ) *
        (2 : ℚ) ^ (Int.log 2 q - 52) := by
  rw [rnd53, if_neg hq.ne.symm, if_neg (not_lt.mpr hq.le), abs_of_pos hq,
    max_eq_left he, one_mul]

/-- Core rounding fact: for integers `0 < a ≤ 2 ^ 53` and
`0 < b ≤ 2 ^ 53`, the ceiling of the correctly rounded binary64 quotient
equals the exact ceiling of `a / b`. -/
theorem ceil_rnd53_intDiv (a b : ℤ) (ha1 : 0 < a) (ha : a ≤ 2 ^ 53)
    (hb0 : 0 < b) (hb : b ≤ 2 ^ 53) :
    ⌈rnd53 ((a : ℚ) / (b : ℚ))⌉ = ⌈(a : ℚ) / (b : ℚ)⌉ := by
  set q : ℚ := (a : ℚ) / (b : ℚ) with hqdef
  have hb0q : (0:ℚ) < (b:ℚ) := by exact_mod_cast hb0
  have ha0q : (0:ℚ) < (a:ℚ) := by exact_mod_cast ha1
  have ha1q : (1:ℚ) ≤ (a:ℚ) := by exact_mod_cast ha1
  have hb1q : (1:ℚ) ≤ (b:ℚ) := by exact_mod_cast hb0
  have hbq : (b:ℚ) ≤ (2:ℚ) ^ (53:ℕ) := by exact_mod_cast hb
  have hq0 : 0 < q := div_pos ha0q hb0q
  have hqup : q ≤ (2:ℚ) ^ (53 : ℤ) := by
    have h1 : q ≤ (a:ℚ) := div_le_self ha0q.le hb1q
    have h2 : (a:ℚ) ≤ (2:ℚ) ^ (53:ℤ) := by
      rw [show ((53:ℤ)) = ((53:ℕ):ℤ) from rfl, zpow_natCast]
      exact_mod_cast ha
    linarith
  have hqlow : (2:ℚ) ^ (-53 : ℤ) ≤ q := by
    have h1 : (1:ℚ)/(b:ℚ) ≤ q := by rw [hqdef]; gcongr
    have h2 : (2:ℚ) ^ (-53 : ℤ) ≤ (1:ℚ)/(b:ℚ) := by
      rw [zpow_neg, one_div, show ((53:ℤ)) = ((53:ℕ):ℤ) from rfl, zpow_natCast]
      exact inv_anti₀ hb0q hbq
    exact le_trans h2 h1
  set e : ℤ := Int.log 2 q with hedef
  have he1 : (2:ℚ) ^ e ≤ q := by
    have h := Int.zpow_log_le_self (b := 2) (by norm_num) hq0
    rw [← hedef] at h
    simpa using h
  have he2 : q < (2:ℚ) ^ (e + 1) := by
    have h := Int.lt_zpow_succ_log_self (b := 2) (by norm_num) q
    rw [← hedef] at h
    simpa using h
  have he_le : e ≤ 53 := (zpow_le_zpow_iff_right₀ one_lt_two).1 (he1.trans hqup)
  have he_ge : -53 ≤ e := by
    have h := (zpow_lt_zpow_iff_right₀ (by norm_num : (1:ℚ) < 2)).1 (hqlow.trans_lt he2)
    omega
  have hclamp : (-1022 : ℤ) ≤ e := by omega
  set y : ℚ := q * (2:ℚ) ^ (52 - e) with hydef
  have hy1 : (2:ℚ) ^ (52:ℤ) ≤ y := by
    have h := mul_le_mul_of_nonneg_right he1 (zpow_nonneg (by norm_num : (0:ℚ) ≤ 2) (52 - e))
    rw [← zpow_add₀ (two_ne_zero : (2:ℚ) ≠ 0) e (52 - e)] at h
    have he52 : e + (52 - e) = 52 := by ring
    rw [he52] at h
    exact h
  have hy2 : y < (2:ℚ) ^ (53:ℤ) := by
    have h := mul_lt_mul_of_pos_right he2 (zpow_pos (by norm_num : (0:ℚ) < 2) (52 - e))
    rw [← zpow_add₀ (two_ne_zero : (2:ℚ) ≠ 0) (e+1) (52 - e)] at h
    have he53 : e + 1 + (52 - e) = 53 := by ring
    rw [he53] at h
    exact h
  have hrnd : rnd53 q = ((roundHalfEven y : ℤ) : ℚ) * (2 : ℚ) ^ (e - 52) :=
    rnd53_of_pos q hq0 hclamp
  set m : ℤ := roundHalfEven y with hmdef
  by_cases hint : (⌊q⌋ : ℚ) = q
  · -- q has an integer value: the quotient is exactly representable
    obtain ⟨N, hN⟩ : ∃ N : ℤ, (N:ℚ) = q := ⟨⌊q⌋, hint⟩
    have hrfl : rnd53 q = q := by
      rcases lt_or_eq_of_le he_le with he52 | he53
      · -- e ≤ 52 : y is the integer N * 2 ^ (52 - e)
        have hj : (0:ℤ) ≤ 52 - e := by omega
        set j : ℕ := (52 - e).toNat with hjdef
        have hjz : ((j:ℤ)) = 52 - e := Int.toNat_of_nonneg hj
        have h2j : (2:ℚ) ^ (52 - e : ℤ) = (2:ℚ) ^ (j:ℕ) := by
          rw [← zpow_natCast (2:ℚ) j, hjz]
        have hyint : y = ((N * 2 ^ j : ℤ) : ℚ) := by
          rw [hydef, h2j, ← hN]
          push_cast
          ring
        have hm : m = N * 2 ^ j := by rw [hmdef, hyint, roundHalfEven_intCast]
        have h2jq : (2:ℚ) ^ (e - 52 : ℤ) = ((2:ℚ) ^ (j:ℕ))⁻¹ := by
          rw [← zpow_natCast (2:ℚ) j, ← zpow_neg]
          congr 1
          omega
        rw [hrnd, hm, h2jq, ← hN]
        push_cast
        have h2jne : ((2:ℚ) ^ (j:ℕ)) ≠ 0 := by positivity
        field_simp
      · -- e = 53 : q = 2 ^ 53 exactly
        have hq53 : q = (2:ℚ) ^ (53:ℤ) := by
          refine le_antisymm hqup ?_
          rw [← he53]
          exact he1
        have hyv : y = ((2 ^ 52 : ℤ) : ℚ) := by
          rw [hydef, hq53, ← he53, ← zpow_add₀ (two_ne_zero : (2:ℚ) ≠ 0) e (52 - e)]
          have h52 : e + (52 - e) = 52 := by ring
          rw [h52, show ((52:ℤ)) = ((52:ℕ):ℤ) from rfl, zpow_natCast]
          push_cast
          ring
        have hm : m = 2 ^ 52 := by rw [hmdef, hyv, roundHalfEven_intCast]
        have hcast : ((2 ^ 52 : ℤ) : ℚ) = (2:ℚ) ^ (52:ℤ) := by
          push_cast
          rw [show ((52:ℤ)) = ((52:ℕ):ℤ) from rfl, zpow_natCast]
          norm_num
        rw [hrnd, hm, hq53, he53, hcast, ← zpow_add₀ (two_ne_zero : (2:ℚ) ≠ 0)]
        norm_num
    rw [hrfl]
  · -- q is not an integer value
    have he52 : e ≤ 52 := by
      rcases lt_or_eq_of_le he_le with h | h
      · omega
      · exfalso
        apply hint
        have hq53 : q = (2:ℚ) ^ (53:ℤ) := by
          refine le_antisymm hqup ?_
          rw [← h]
          exact he1
        have : q = ((2 ^ 53 : ℤ) : ℚ) := by
          rw [hq53]
          push_cast
          rw [show ((53:ℤ)) = ((53:ℕ):ℤ) from rfl, zpow_natCast]
          norm_num
        rw [this, Int.floor_intCast]
    set N : ℤ := ⌊q⌋ with hNdef
    have hNlt : (N : ℚ) < q := lt_of_le_of_ne (Int.floor_le q) hint
    have hqlt : q < (N:ℚ) + 1 := Int.lt_floor_add_one q
    have hceilq : ⌈q⌉ = N + 1 := by
      rw [Int.ceil_eq_iff]
      constructor
      · push_cast
        linarith
      · push_cast
        linarith
    have hj : (0:ℤ) ≤ 52 - e := by omega
    set j : ℕ := (52 - e).toNat with hjdef
    have hjz : ((j:ℤ)) = 52 - e := Int.toNat_of_nonneg hj
    have h2j : (2:ℚ) ^ (52 - e : ℤ) = (2:ℚ) ^ (j:ℕ) := by
      rw [← zpow_natCast (2:ℚ) j, hjz]
    have h2jpos : (0:ℚ) < (2:ℚ) ^ (j:ℕ) := by positivity
    have h2jq : (2:ℚ) ^ (e - 52 : ℤ) = ((2:ℚ) ^ (j:ℕ))⁻¹ := by
      rw [← zpow_natCast (2:ℚ) j, ← zpow_neg]
      congr 1
      omega
    have hyj : y = q * (2:ℚ) ^ (j:ℕ) := by rw [hydef, h2j]
    -- upper half: the rounded value never exceeds N + 1
    have hupper : rnd53 q ≤ (N:ℚ) + 1 := by
      have hm_le : m ≤ (N + 1) * 2 ^ j := by
        refine le_trans (roundHalfEven_le_ceil y) ?_
        rw [Int.ceil_le, hyj]
        push_cast
        nlinarith [h2jpos, hqlt]
      rw [hrnd, h2jq]
      rw [mul_inv_le_iff₀ h2jpos]
      calc ((m:ℤ):ℚ) ≤ (((N + 1) * 2 ^ j : ℤ) : ℚ) := by exact_mod_cast hm_le
        _ = ((N:ℚ) + 1) * (2:ℚ) ^ (j:ℕ) := by push_cast; ring
    -- lower half: the rounded value exceeds N
    have hlower : (N:ℚ) < rnd53 q := by
      by_contra hcon
      push_neg at hcon
      have hmN : (m:ℚ) ≤ (N:ℚ) * (2:ℚ) ^ (j:ℕ) := by
        rw [hrnd, h2jq, mul_inv_le_iff₀ h2jpos] at hcon
        exact hcon
      have hd : (q - (N:ℚ)) * (2:ℚ) ^ (j:ℕ) ≤ 1 / 2 := by
        have h1 : y - 1 / 2 ≤ (m:ℚ) := sub_half_le_roundHalfEven y
        rw [hyj] at h1
        nlinarith [h1, hmN]
      have hNb : N * b + 1 ≤ a := by
        have h1 : (N:ℚ) * (b:ℚ) < (a:ℚ) := by
          have h2 := hNlt
          rw [hqdef, lt_div_iff₀ hb0q] at h2
          exact h2
        have h2 : N * b < a := by exact_mod_cast h1
        omega
      have hdgeb : (1:ℚ)/(b:ℚ) ≤ q - (N:ℚ) := by
        rw [hqdef, le_sub_iff_add_le, div_add' _ _ _ hb0q.ne.symm]
        gcongr
        have hNbq : ((N * b + 1 : ℤ) : ℚ) ≤ ((a : ℤ) : ℚ) := by exact_mod_cast hNb
        push_cast at hNbq ⊢
        linarith
      have h1 : (1:ℚ)/(b:ℚ) * (2:ℚ) ^ (j:ℕ) ≤ 1 / 2 := by
        calc (1:ℚ)/(b:ℚ) * (2:ℚ) ^ (j:ℕ)
            ≤ (q - (N:ℚ)) * (2:ℚ) ^ (j:ℕ) := mul_le_mul_of_nonneg_right hdgeb h2jpos.le
          _ ≤ 1 / 2 := hd
      have hbig : (2:ℚ) ^ (j:ℕ) * 2 ≤ (b:ℚ) := by
        rw [div_mul_eq_mul_div, one_mul, div_le_div_iff₀ hb0q (by norm_num : (0:ℚ) < 2)] at h1
        linarith
      rcases le_or_lt 0 e with he0 | heneg
      · -- e ≥ 0 : the numerator would have to exceed 2 ^ 53
        set i : ℕ := e.toNat with hidef
        have hiz : ((i:ℤ)) = e := Int.toNat_of_nonneg he0
        have hNge : (2:ℤ) ^ i ≤ N := by
          rw [hNdef, Int.le_floor]
          push_cast
          calc ((2:ℚ)) ^ (i:ℕ) = (2:ℚ) ^ (e:ℤ) := by rw [← zpow_natCast (2:ℚ) i, hiz]
            _ ≤ q := he1
        have hbZ : (2:ℤ) ^ (j + 1) ≤ b := by
          have h2 : ((2:ℚ)) ^ (j + 1 : ℕ) ≤ (b:ℚ) := by
            rw [pow_succ]
            exact hbig
          exact_mod_cast h2
        have hij : i + (j + 1) = 53 := by omega
        have hNbig : (2:ℤ) ^ (53:ℕ) ≤ N * b := by
          calc (2:ℤ) ^ (53:ℕ) = 2 ^ i * 2 ^ (j + 1) := by rw [← pow_add, hij]
            _ ≤ N * b := by
                refine mul_le_mul hNge hbZ (by positivity) ?_
                exact le_trans (by positivity) hNge
        linarith [hNb, hNbig, ha]
      · -- e < 0 : then N = 0 while the rounded value is positive
        have hN0 : N = 0 := by
          have h1q : q < 1 := by
            have h2 : (2:ℚ) ^ (e + 1:ℤ) ≤ (2:ℚ) ^ (0:ℤ) :=
              (zpow_le_zpow_iff_right₀ one_lt_two).2 (by omega)
            simpa using lt_of_lt_of_le he2 h2
          have hN1 : N < 1 := by
            rw [hNdef]
            exact_mod_cast lt_of_le_of_lt (Int.floor_le q) h1q
          have hN2 : 0 ≤ N := by
            rw [hNdef]
            exact Int.floor_nonneg.mpr hq0.le
          omega
        have hrpos : 0 < rnd53 q := by
          rw [hrnd]
          have h2 : (1:ℚ) ≤ (2:ℚ) ^ (52:ℤ) := by
            rw [show ((52:ℤ)) = ((52:ℕ):ℤ) from rfl, zpow_natCast]
            norm_num
          have h3 : (0:ℚ) < (m:ℚ) := by
            have h4 := sub_half_le_roundHalfEven y
            linarith [hy1]
          exact mul_pos h3 (zpow_pos (by norm_num : (0:ℚ) < 2) _)
        rw [hN0] at hcon
        push_cast at hcon
        linarith
    rw [hceilq, Int.ceil_eq_iff]
    constructor
    · push_cast
      linarith
    · push_cast
      linarith

/-- The embedded `pages` computation is the exact integer ceiling whenever
`0 ≤ count ≤ 2 ^ 53` and `0 < page_size ≤ 2 ^ 53`. -/
theorem pagesOf_exact {Obj : Type} (st : JsonApiResourceViewBuilder Obj) (count : ℤ)
    (h1 : 0 < st.page_size) (h2 : st.page_size ≤ 2 ^ 53)
    (h3 : 0 ≤ count) (h4 : count ≤ 2 ^ 53) :
    JsonApiResourceViewBuilder.pagesOf st count = ⌈(count : ℚ) / (st.page_size : ℚ)⌉ := by
  rcases eq_or_lt_of_le h3 with h0 | hpos
  · rw [JsonApiResourceViewBuilder.pagesOf, ← h0]
    norm_num [rnd53]
  · exact ceil_rnd53_intDiv count st.page_size hpos h4 h1 h2

/-- The binary64 rounding of `2 ^ 53 + 1` is `2 ^ 53`: the value is exactly
halfway between the neighbouring doubles `2 ^ 53` and `2 ^ 53 + 2`, and the
tie goes to the even mantissa. -/
theorem rnd53_two_pow_53_add_one :
    rnd53 ((2:ℚ) ^ (53:ℕ) + 1) = (2:ℚ) ^ (53:ℕ) := by
  set q : ℚ := (2:ℚ) ^ (53:ℕ) + 1 with hqdef
  have hq0 : 0 < q := by rw [hqdef]; positivity
  have hq1 : (2:ℚ) ^ (53:ℤ) ≤ q := by
    rw [show ((53:ℤ)) = ((53:ℕ):ℤ) from rfl, zpow_natCast, hqdef]
    linarith
  have hq2 : q < (2:ℚ) ^ (54:ℤ) := by
    rw [show ((54:ℤ)) = ((54:ℕ):ℤ) from rfl, zpow_natCast, hqdef]
    norm_num
  have he : Int.log 2 q = 53 := by
    have he1 := Int.zpow_log_le_self (b := 2) (by norm_num) hq0
    have he2 := Int.lt_zpow_succ_log_self (b := 2) (by norm_num) q
    simp only [Nat.cast_ofNat] at he1 he2
    have hle : Int.log 2 q ≤ 53 := by
      by_contra hcon
      push_neg at hcon
      have h3 : (2:ℚ) ^ (54:ℤ) ≤ (2:ℚ) ^ (Int.log 2 q) :=
        (zpow_le_zpow_iff_right₀ one_lt_two).2 (by omega)
      linarith [he1, hq2]
    have hge : 53 ≤ Int.log 2 q := by
      have h3 : (2:ℚ) ^ (53:ℤ) < (2:ℚ) ^ (Int.log 2 q + 1) := lt_of_le_of_lt hq1 he2
      have h4 := (zpow_lt_zpow_iff_right₀ (by norm_num : (1:ℚ) < 2)).1 h3
      omega
    omega
  rw [rnd53_of_pos q hq0 (by rw [he]; norm_num), he]
  have hy : q * (2:ℚ) ^ (52 - 53 : ℤ) = ((2 ^ 52 : ℤ) : ℚ) + 1/2 := by
    rw [hqdef, show ((52:ℤ) - 53) = (-1:ℤ) from by norm_num]
    push_cast
    norm_num
  rw [hy]
  have hfr : Int.fract (((2 ^ 52 : ℤ) : ℚ) + 1/2) = 1/2 := by
    rw [Int.fract_int_add]
    rw [Int.fract_eq_self.mpr (by constructor <;> norm_num)]
  have hfl : ⌊((2 ^ 52 : ℤ) : ℚ) + 1/2⌋ = 2 ^ 52 := by
    rw [Int.floor_int_add]
    norm_num
  have hrh : roundHalfEven (((2 ^ 52 : ℤ) : ℚ) + 1/2) = 2 ^ 52 := by
    unfold roundHalfEven
    rw [hfr, hfl, if_neg (by norm_num), if_neg (by norm_num),
      if_pos (by decide : ((2:ℤ) ^ 52) % 2 = 0)]
  rw [hrh, show ((53:ℤ) - 52) = (1:ℤ) from by norm_num, zpow_one]
  push_cast
  ring

/-! ## Claims -/

/-- Claim C1.  The claim is refuted by the code, and the `FILTER_MAP` table
itself documents the intent the handler misses: `FILTER_REGEX`'s `op`
group captures the separating dot (`(?P<op>\.[\w_\-]+)?`), so the group
value for `filter[age.gt]` is `'.gt'`, which is never a key of
`FILTER_MAP`; `FILTER_MAP.get` therefore always falls back to `'=='`.
This theorem evaluates the embedded handler at the failing input: the
entry produced for `filter[age.gt]` has op `'=='`, while `FILTER_MAP`
itself maps `'gt'` (dot-less, as the claim states) to `'>'`. -/
theorem claim1_filter_map_dead_at_gt :
    processParam (fun _ => none) (("filter[age.gt]"), ("5")) =
      some { field := "age", op := "==", value := PyVal.str ("5") } ∧
    filterRegexMatch ("filter[age.gt]") = some (("age"), some (".gt")) ∧
    FILTER_MAP.lookup ("gt") = some (">") ∧
    ("==" : String) ≠ (">" : String) := by
  refine ⟨rfl, rfl, rfl, ?_⟩
  decide

/-- Claim C2 counterexample: a builder configured through
`.fields(['name'])` and `.fields(['age'], limit_to_on_retrieve=True)` has
`_fields = {False: ['name'], True: ['age']}`; after the state effect of
`_build` (reached through `get_urls`) the `_fields` mapping is
`{False: ['name'], True: ['age', 'name']}` — not equal to its value before
the call, refuting the claim as stated. -/
theorem claim2_counterexample :
    (JsonApiModelViewBuilder.buildStateEffect exampleModelBuilder).fields ≠
      exampleModelBuilder.fields := by
  decide

/-- Claim C2 (amended): building the URL routes leaves `_filters`,
`_computed_filters` and the `False` (list-view) entries of `_fields`,
`_custom_fields`, `_relations` and `_generic_relations` unchanged, but it
extends the `True` (retrieve-view) entry of each of those four dicts in
place by the corresponding `False` entry whenever the `True` key is
present (absent keys stay absent).  Consequently a second `get_urls` call
starts from the already-extended retrieve entries and appends the
list-view entries again, so the builder's configuration is NOT frozen. -/
theorem claim2_build_state_effect {Obj : Type} (st : JsonApiModelViewBuilder Obj) :
    (JsonApiModelViewBuilder.buildStateEffect st).filters = st.filters ∧
    (JsonApiModelViewBuilder.buildStateEffect st).computed_filters = st.computed_filters ∧
    (JsonApiModelViewBuilder.buildStateEffect st).allowed_methods = st.allowed_methods ∧
    (JsonApiModelViewBuilder.buildStateEffect st).resource_name = st.resource_name ∧
    (JsonApiModelViewBuilder.buildStateEffect st).fields.atFalse = st.fields.atFalse ∧
    (JsonApiModelViewBuilder.buildStateEffect st).fields.atTrue =
      st.fields.atTrue.map (fun l => l ++ (st.fields.atFalse.getD [])) ∧
    (JsonApiModelViewBuilder.buildStateEffect st).custom_fields.atFalse =
      st.custom_fields.atFalse ∧
    (JsonApiModelViewBuilder.buildStateEffect st).custom_fields.atTrue =
      st.custom_fields.atTrue.map (fun l => l ++ (st.custom_fields.atFalse.getD [])) ∧
    (JsonApiModelViewBuilder.buildStateEffect st).relations.atFalse = st.relations.atFalse ∧
    (JsonApiModelViewBuilder.buildStateEffect st).relations.atTrue =
      st.relations.atTrue.map (fun l => l ++ (st.relations.atFalse.getD [])) ∧
    (JsonApiModelViewBuilder.buildStateEffect st).generic_relations.atFalse =
      st.generic_relations.atFalse ∧
    (JsonApiModelViewBuilder.buildStateEffect st).generic_relations.atTrue =
      st.generic_relations.atTrue.map (fun l => l ++ (st.generic_relations.atFalse.getD [])) := by
  refine ⟨rfl, rfl, rfl, rfl, ?_, ?_, ?_, ?_, ?_, ?_, ?_, ?_⟩ <;>
    first
      | exact extendRetrieveEntry_atFalse _
      | exact extendRetrieveEntry_atTrue _

/-- Claim C3 counterexample: constructing a `JsonApiResourceViewBuilder`
with the unsupported method `'BOGUS'` succeeds — `__init__` contains no
validation, the configuration state is created and stores the invalid
method list as is — refuting the claim for that builder. -/
theorem claim3_counterexample :
    (JsonApiResourceViewBuilder.init Unit none ("") ("id") [("BOGUS")]
        none none false false false 50).allowed_methods = [("BOGUS")] ∧
    ("BOGUS") ∉ HTTP_ALL := by
  exact ⟨rfl, by decide⟩

/-- Claim C3 (amended): only `JsonApiModelViewBuilder` validates
`allowed_methods` — its `__init__` raises immediately, before any
configuration state is created (the embedded constructor returns an error
and no state), whenever the list contains an unsupported method;
`JsonApiResourceViewBuilder.__init__` performs no validation, never
raises, and stores any `allowed_methods` list unchanged. -/
theorem claim3_only_model_builder_validates {Obj : Type} (model model_objects : Obj)
    (pk rn : Option String) (av : String) (ams : List String)
    (pc ac : Option (List Obj)) (qs po : Option Obj) (ip : Option (List String))
    (popt : Option (List (String × Obj))) (erv : Bool) (dtl : String)
    (m : String) (hm : m ∈ ams) (hbad : m ∉ HTTP_ALL) :
    (∃ e, JsonApiModelViewBuilder.init Obj model pk rn av ams pc ac qs po ip popt erv
        model_objects dtl = Except.error e) ∧
    (∀ (an : Option String) (av2 ui : String) (ams2 : List String)
        (pc2 ac2 : Option (List Obj)) (ri ia oc : Bool) (ps : Int),
      (JsonApiResourceViewBuilder.init Obj an av2 ui ams2 pc2 ac2 ri ia oc ps).allowed_methods
        = ams2) := by
  constructor
  · have hv : ams.any (fun method => !(HTTP_ALL.contains method)) = true := by
      simp only [List.any_eq_true]
      exact ⟨m, hm, by simpa using hbad⟩
    have hex : ∃ x ∈ ams, x ∉ HTTP_ALL := ⟨m, hm, hbad⟩
    refine ⟨("Cannot limit fields to HTTP Method of types: " ++
      toString (ams.filter (fun method => !(HTTP_ALL.contains method)))), ?_⟩
    simp [JsonApiModelViewBuilder.init, JsonApiModelViewBuilder.validateHttpMethods, hv, hex]
  · intro an av2 ui ams2 pc2 ac2 ri ia oc ps
    rfl

/-- Witness for `claim3_only_model_builder_validates` at a concrete input:
the model-view builder rejects `allowed_methods = ['BOGUS']`. -/
theorem claim3_only_model_builder_validates_witness :
    ∃ e, JsonApiModelViewBuilder.init Unit () none none ("") [("BOGUS")]
        none none none none none none false () ("") = Except.error e :=
  (@claim3_only_model_builder_validates Unit () () none none ("") [("BOGUS")]
    none none none none none none false ("") ("BOGUS") (by decide) (by decide)).1

/-- Claim C4: `add_filter` raises — and registers nothing — when some
requested lookup is outside the supported lookup set, and otherwise stores
under the given name a `Filter` with exactly the requested lookups
(`(EXACT,)` when `lookups` is `None`).  The embedded error branch returns
no state at all, so `_filters` is unchanged on failure. -/
theorem claim4_add_filter {Obj : Type} (st : JsonApiModelViewBuilder Obj) (name : String)
    (field : Option String) (lookups : Option (List String)) (tv : Option Obj) :
    ((∃ lookup ∈ lookups.getD [lookups_EXACT], lookup ∉ lookups_ALL) →
      ∃ e, JsonApiModelViewBuilder.add_filter st name field lookups tv = Except.error e) ∧
    ((∀ lookup ∈ lookups.getD [lookups_EXACT], lookup ∈ lookups_ALL) →
      JsonApiModelViewBuilder.add_filter st name field lookups tv =
        Except.ok { st with filters := (dictSet st.filters name
          ({ field := field.getD name, lookups := lookups.getD [lookups_EXACT],
             transform_value := tv })) }) := by
  constructor
  · rintro ⟨lk, hmem, hnot⟩
    have hex : ∃ x ∈ lookups.getD [lookups_EXACT], x ∉ lookups_ALL := ⟨lk, hmem, hnot⟩
    refine ⟨("Filter lookups are invalid: " ++
      toString ((lookups.getD [lookups_EXACT]).filter
        (fun lookup => !(lookups_ALL.contains lookup)))), ?_⟩
    cases lookups <;>
      simp_all [JsonApiModelViewBuilder.add_filter]
  · intro hall
    have hno : ¬ ∃ x ∈ lookups.getD [lookups_EXACT], x ∉ lookups_ALL := by
      rintro ⟨x, hx, hnx⟩
      exact hnx (hall x hx)
    cases lookups <;>
      simp_all [JsonApiModelViewBuilder.add_filter]

/-- Witness for `claim4_add_filter` at concrete inputs: an unsupported
lookup name is rejected, and a default (`EXACT`) filter is stored. -/
theorem claim4_add_filter_witness :
    (∃ e, JsonApiModelViewBuilder.add_filter exampleModelBuilder ("history_date")
        none (some [("bogus_lookup")]) none = Except.error e) ∧
    (JsonApiModelViewBuilder.add_filter exampleModelBuilder ("history_id")
        none none none =
      Except.ok { exampleModelBuilder with filters := (dictSet exampleModelBuilder.filters
        ("history_id")
        ({ field := "history_id", lookups := [lookups_EXACT], transform_value := none })) }) :=
  ⟨(claim4_add_filter exampleModelBuilder ("history_date") none (some [("bogus_lookup")])
      none).1 (by decide),
   (claim4_add_filter exampleModelBuilder ("history_id") none none none).2 (by decide)⟩

/-- Claim C5: every query-parameter value goes through the permissive
literal-eval, and when the evaluation raises (`leval v = none`) the
produced filter entry keeps the original raw string as its value; the
handler is a total function of its inputs, so the failure never escapes
(the source catches it with a bare `except: pass`). -/
theorem claim5_literal_eval_fallback (leval : String → Option PyVal) (k v : String)
    (h : leval v = none) :
    processParam leval (k, v) =
      (match filterRegexMatch k with
       | some fo => some { field := fo.1, op := filterMapGet fo.2, value := PyVal.str v }
       | none => none) := by
  cases hk : filterRegexMatch k <;>
    simp [processParam, evalValue, hk, h]

/-- Witness for `claim5_literal_eval_fallback`: a value that is not a
Python literal is kept verbatim in the filter entry. -/
theorem claim5_literal_eval_fallback_witness :
    processParam (fun _ => none) (("filter[name]"), ("not a ( literal")) =
      some { field := "name", op := "==", value := PyVal.str ("not a ( literal") } :=
  (claim5_literal_eval_fallback (fun _ => none) ("filter[name]") ("not a ( literal")
    rfl).trans rfl

/-- Claim C6: on the `on_list` callback branch, the response body is a
JSON object whose top-level keys are exactly `links`, `data`, `included`
and `meta`; `links` has exactly the entries `first`, `last`, `next`,
`previous`; `data` holds one entry per callback item; `included` is the
callback's included list with `None` and the empty list both collapsing to
`[]`; and `meta` holds a `pagination` object with `page`, `pages` and
`count`. -/
theorem claim6_list_envelope {Obj : Type} (st : JsonApiResourceViewBuilder Obj)
    (page : Int) (data : List (List (String × PyVal))) (included : Option (List PyVal))
    (count : Int) :
    objKeys (JsonApiResourceViewBuilder.listEnvelope st page data included count) =
      [("links"), ("data"), ("included"), ("meta")] ∧
    (objGet (JsonApiResourceViewBuilder.listEnvelope st page data included count)
        ("links")).map objKeys = some [("first"), ("last"), ("next"), ("previous")] ∧
    objGet (JsonApiResourceViewBuilder.listEnvelope st page data included count) ("data") =
      some (PyVal.arr (data.map (JsonApiResourceViewBuilder.listItem st))) ∧
    (data.map (JsonApiResourceViewBuilder.listItem st)).length = data.length ∧
    objGet (JsonApiResourceViewBuilder.listEnvelope st page data included count)
        ("included") = some (PyVal.arr (included.getD [])) ∧
    objGet (JsonApiResourceViewBuilder.listEnvelope st page data included count) ("meta") =
      some (PyVal.obj [(("pagination"), PyVal.obj [
        (("page"), PyVal.int page),
        (("pages"), PyVal.int (JsonApiResourceViewBuilder.pagesOf st count)),
        (("count"), PyVal.int count)])]) := by
  refine ⟨rfl, rfl, rfl, by simp, ?_, rfl⟩
  show some (PyVal.arr (JsonApiResourceViewBuilder.includedValue included)) = _
  cases included with
  | none => rfl
  | some l => cases l <;> rfl

/-- Claim C7 counterexample: at `count = 2 ^ 53 + 1` items and
`page_size = 1`, the handler computes `pages = 2 ^ 53`: Python's
double-precision division rounds `(2 ^ 53 + 1) / 1` down to `2 ^ 53`
(the value is halfway between consecutive doubles and the tie goes to the
even mantissa) before `math.ceil` is applied, while the exact-integer
ceiling the claim asserts is `2 ^ 53 + 1`. -/
theorem claim7_counterexample :
    JsonApiResourceViewBuilder.pagesOf unitPageResourceBuilder (2 ^ 53 + 1) = 2 ^ 53 ∧
    ⌈((2 ^ 53 + 1 : ℤ) : ℚ) / (unitPageResourceBuilder.page_size : ℚ)⌉ = 2 ^ 53 + 1 ∧
    (2 ^ 53 : ℤ) ≠ 2 ^ 53 + 1 := by
  have hps : unitPageResourceBuilder.page_size = 1 := rfl
  have hcast : ((2 ^ 53 + 1 : ℤ) : ℚ) = (2:ℚ) ^ (53:ℕ) + 1 := by push_cast; ring
  have hcast2 : ((2:ℚ) ^ (53:ℕ)) = ((2 ^ 53 : ℤ) : ℚ) := by push_cast; ring
  refine ⟨?_, ?_, by norm_num⟩
  · rw [JsonApiResourceViewBuilder.pagesOf, hps]
    rw [show ((1:ℤ) : ℚ) = 1 from rfl, div_one, hcast, rnd53_two_pow_53_add_one,
      hcast2, Int.ceil_intCast]
  · rw [hps, show ((1:ℤ) : ℚ) = 1 from rfl, div_one, hcast]
    rw [show ((2:ℚ) ^ (53:ℕ) + 1) = ((2 ^ 53 + 1 : ℤ) : ℚ) from by push_cast; ring,
      Int.ceil_intCast]

/-- Claim C7 (amended): for a callback result with `count` items and a
requested page `page`, provided `0 < page_size ≤ 2 ^ 53` and
`0 ≤ count ≤ 2 ^ 53`, `meta.pagination.pages` equals
`ceil(count / page_size)` computed over exact integers — in that range the
double-precision division the code performs is faithful to the exact
quotient's ceiling, while beyond it the rounding can cross an integer (see
`claim7_counterexample`); `links.next` is null exactly when `page = pages`
or `pages ≤ 1` and otherwise names `page_number page + 1`;
`links.previous` is null exactly when `page ≤ 1` and otherwise names
`page_number page - 1`; `links.first` always names `page_number 1` and
`links.last` names `page_number pages`. -/
theorem claim7_pagination {Obj : Type} (st : JsonApiResourceViewBuilder Obj)
    (page : Int) (data : List (List (String × PyVal))) (included : Option (List PyVal))
    (count : Int) (hps : 0 < st.page_size) (hps53 : st.page_size ≤ 2 ^ 53)
    (hc0 : 0 ≤ count) (hc53 : count ≤ 2 ^ 53) :
    JsonApiResourceViewBuilder.pagesOf st count =
      ⌈(count : ℚ) / (st.page_size : ℚ)⌉ ∧
    ((objGet (JsonApiResourceViewBuilder.listEnvelope st page data included count)
        ("meta")).bind (fun m => objGet m ("pagination"))).bind (fun p => objGet p ("pages")) =
      some (PyVal.int (JsonApiResourceViewBuilder.pagesOf st count)) ∧
    ((objGet (JsonApiResourceViewBuilder.listEnvelope st page data included count)
        ("links")).bind (fun l => objGet l ("next"))) =
      some (if page = JsonApiResourceViewBuilder.pagesOf st count ∨
              JsonApiResourceViewBuilder.pagesOf st count ≤ 1 then PyVal.null
            else PyVal.str (JsonApiResourceViewBuilder.apiLink st (page + 1))) ∧
    ((objGet (JsonApiResourceViewBuilder.listEnvelope st page data included count)
        ("links")).bind (fun l => objGet l ("previous"))) =
      some (if page ≤ 1 then PyVal.null
            else PyVal.str (JsonApiResourceViewBuilder.apiLink st (page - 1))) ∧
    ((objGet (JsonApiResourceViewBuilder.listEnvelope st page data included count)
        ("links")).bind (fun l => objGet l ("first"))) =
      some (PyVal.str (JsonApiResourceViewBuilder.apiLink st 1)) ∧
    ((objGet (JsonApiResourceViewBuilder.listEnvelope st page data included count)
        ("links")).bind (fun l => objGet l ("last"))) =
      some (PyVal.str (JsonApiResourceViewBuilder.apiLink st
        (JsonApiResourceViewBuilder.pagesOf st count))) := by
  exact ⟨pagesOf_exact st count hps hps53 hc0 hc53, rfl, rfl, rfl, rfl, rfl⟩

/-- Witness for `claim7_pagination` at a concrete builder
(`page_size = 2`) and a callback result with 5 items. -/
theorem claim7_pagination_witness :
    (0 < exampleResourceBuilder.page_size ∧ exampleResourceBuilder.page_size ≤ 2 ^ 53 ∧
      (0:ℤ) ≤ 5 ∧ (5:ℤ) ≤ 2 ^ 53) ∧
    JsonApiResourceViewBuilder.pagesOf exampleResourceBuilder 5 =
      ⌈((5 : ℤ) : ℚ) / (exampleResourceBuilder.page_size : ℚ)⌉ :=
  ⟨⟨by decide, by decide, by decide, by decide⟩,
   (claim7_pagination exampleResourceBuilder 2 [] none 5 (by decide) (by decide)
     (by decide) (by decide)).1⟩

/-- Claim C8: `JsonApiResourceViewBuilder` stores the NEGATION of its
`raw_items` argument; with `raw_items=False` (the default) the `create`,
`update`, `get` and `_list` handlers wrap each result as
`{'id': ..., 'type': resource_name, 'attributes': ...}`, while with
`raw_items=True` they return the callback's data without that wrapping
(the `create`/`update` bodies are then `{'data': data}` and `get`/list
items pass through unchanged). -/
theorem claim8_raw_items {Obj : Type} (an : Option String) (av ui : String)
    (ams : List String) (pc ac : Option (List Obj)) (ia oc : Bool) (ps : Int)
    (identifier data : PyVal) (item : List (String × PyVal)) :
    (JsonApiResourceViewBuilder.init Obj an av ui ams pc ac false ia oc ps).raw_items
      = true ∧
    (JsonApiResourceViewBuilder.init Obj an av ui ams pc ac true ia oc ps).raw_items
      = false ∧
    JsonApiResourceViewBuilder.createBody
        (JsonApiResourceViewBuilder.init Obj an av ui ams pc ac false ia oc ps)
        data identifier =
      JsonApiResourceViewBuilder.wrapItem
        (JsonApiResourceViewBuilder.init Obj an av ui ams pc ac false ia oc ps)
        identifier data ∧
    JsonApiResourceViewBuilder.updateBody
        (JsonApiResourceViewBuilder.init Obj an av ui ams pc ac false ia oc ps)
        identifier data =
      JsonApiResourceViewBuilder.wrapItem
        (JsonApiResourceViewBuilder.init Obj an av ui ams pc ac false ia oc ps)
        identifier data ∧
    JsonApiResourceViewBuilder.getBody
        (JsonApiResourceViewBuilder.init Obj an av ui ams pc ac false ia oc ps)
        identifier data =
      JsonApiResourceViewBuilder.wrapItem
        (JsonApiResourceViewBuilder.init Obj an av ui ams pc ac false ia oc ps)
        identifier data ∧
    JsonApiResourceViewBuilder.listItem
        (JsonApiResourceViewBuilder.init Obj an av ui ams pc ac false ia oc ps) item =
      PyVal.obj [(("id"), (item.lookup ui).getD PyVal.null),
        (("type"), JsonApiResourceViewBuilder.resourceNameVal
          (JsonApiResourceViewBuilder.init Obj an av ui ams pc ac false ia oc ps)),
        (("attributes"), PyVal.obj item)] ∧
    JsonApiResourceViewBuilder.createBody
        (JsonApiResourceViewBuilder.init Obj an av ui ams pc ac true ia oc ps)
        data identifier = PyVal.obj [(("data"), data)] ∧
    JsonApiResourceViewBuilder.updateBody
        (JsonApiResourceViewBuilder.init Obj an av ui ams pc ac true ia oc ps)
        identifier data = PyVal.obj [(("data"), data)] ∧
    JsonApiResourceViewBuilder.getBody
        (JsonApiResourceViewBuilder.init Obj an av ui ams pc ac true ia oc ps)
        identifier data = data ∧
    JsonApiResourceViewBuilder.listItem
        (JsonApiResourceViewBuilder.init Obj an av ui ams pc ac true ia oc ps) item =
      PyVal.obj item := by
  exact ⟨rfl, rfl, rfl, rfl, rfl, rfl, rfl, rfl, rfl, rfl⟩

/-- Claim C9: `get_dict_by_methods` keeps exactly the dispatch entries
whose HTTP method is allowed — for `'list'` the entries `get ↦ list` and
`post ↦ create`; for `'get'` the entries `get ↦ retrieve`,
`patch ↦ update`, `delete ↦ destroy`; for `'relation'` only
`get ↦ retrieve_related`; and the empty dict for every other view type. -/
theorem claim9_get_dict_by_methods (allowed : List String) (vt : String) :
    (∀ kv, kv ∈ get_dict_by_methods ("get") allowed ↔
      ((kv = ((("get"), ("retrieve"))) ∧ HTTP_GET ∈ allowed) ∨
       (kv = ((("patch"), ("update"))) ∧ HTTP_PATCH ∈ allowed) ∨
       (kv = ((("delete"), ("destroy"))) ∧ HTTP_DELETE ∈ allowed))) ∧
    (∀ kv, kv ∈ get_dict_by_methods ("list") allowed ↔
      ((kv = ((("get"), ("list"))) ∧ HTTP_GET ∈ allowed) ∨
       (kv = ((("post"), ("create"))) ∧ HTTP_POST ∈ allowed))) ∧
    (∀ kv, kv ∈ get_dict_by_methods ("relation") allowed ↔
      (kv = ((("get"), ("retrieve_related"))) ∧ HTTP_GET ∈ allowed)) ∧
    (vt ≠ ("get") → vt ≠ ("list") → vt ≠ ("relation") →
      get_dict_by_methods vt allowed = []) := by
  refine ⟨?_, ?_, ?_, ?_⟩
  · intro kv
    by_cases hg : HTTP_GET ∈ allowed <;> by_cases hp : HTTP_PATCH ∈ allowed <;>
      by_cases hd : HTTP_DELETE ∈ allowed <;>
        simp [get_dict_by_methods, hg, hp, hd]
  · intro kv
    by_cases hg : HTTP_GET ∈ allowed <;> by_cases hp : HTTP_POST ∈ allowed <;>
      simp [get_dict_by_methods, hg, hp]
  · intro kv
    by_cases hg : HTTP_GET ∈ allowed <;> simp [get_dict_by_methods, hg]
  · intro hg hl hr
    simp [get_dict_by_methods, hg, hl, hr]

/-- Witness for `claim9_get_dict_by_methods` at a concrete input: an
unknown view type yields the empty dispatch dict. -/
theorem claim9_get_dict_by_methods_witness :
    get_dict_by_methods ("other") [HTTP_GET] = [] :=
  (claim9_get_dict_by_methods [HTTP_GET] ("other")).2.2.2
    (by decide) (by decide) (by decide)

/-- Claim C10: registering any of the fourteen lifecycle callbacks for an
HTTP method missing from `allowed_methods` is not an error: each setter is
a total function (the source has no `raise` on these paths) that stores
the callback on the builder, and its warning flag — the embedding of
`LOGGER.warning` being called — is set exactly when the method is not
allowed. -/
theorem claim10_lifecycle_callbacks {Obj : Type} (st : JsonApiModelViewBuilder Obj)
    (rst : JsonApiResourceViewBuilder Obj) (cb : Option Obj) :
    ((JsonApiModelViewBuilder.before_create st cb).1 =
        { st with before_create_callback := cb } ∧
      ((JsonApiModelViewBuilder.before_create st cb).2 = true ↔
        HTTP_POST ∉ st.allowed_methods)) ∧
    ((JsonApiModelViewBuilder.after_create st cb).1 =
        { st with after_create_callback := cb } ∧
      ((JsonApiModelViewBuilder.after_create st cb).2 = true ↔
        HTTP_POST ∉ st.allowed_methods)) ∧
    ((JsonApiModelViewBuilder.after_get st cb).1 =
        { st with after_get_callback := cb } ∧
      ((JsonApiModelViewBuilder.after_get st cb).2 = true ↔
        HTTP_GET ∉ st.allowed_methods)) ∧
    ((JsonApiModelViewBuilder.before_update st cb).1 =
        { st with before_update_callback := cb } ∧
      ((JsonApiModelViewBuilder.before_update st cb).2 = true ↔
        HTTP_PATCH ∉ st.allowed_methods)) ∧
    ((JsonApiModelViewBuilder.after_update st cb).1 =
        { st with after_update_callback := cb } ∧
      ((JsonApiModelViewBuilder.after_update st cb).2 = true ↔
        HTTP_PATCH ∉ st.allowed_methods)) ∧
    ((JsonApiModelViewBuilder.before_delete st cb).1 =
        { st with before_delete_callback := cb } ∧
      ((JsonApiModelViewBuilder.before_delete st cb).2 = true ↔
        HTTP_DELETE ∉ st.allowed_methods)) ∧
    ((JsonApiModelViewBuilder.after_delete st cb).1 =
        { st with after_delete_callback := cb } ∧
      ((JsonApiModelViewBuilder.after_delete st cb).2 = true ↔
        HTTP_DELETE ∉ st.allowed_methods)) ∧
    ((JsonApiModelViewBuilder.before_list st cb).1 =
        { st with before_list_callback := cb } ∧
      ((JsonApiModelViewBuilder.before_list st cb).2 = true ↔
        HTTP_GET ∉ st.allowed_methods)) ∧
    ((JsonApiModelViewBuilder.after_list st cb).1 =
        { st with after_list_callback := cb } ∧
      ((JsonApiModelViewBuilder.after_list st cb).2 = true ↔
        HTTP_GET ∉ st.allowed_methods)) ∧
    ((JsonApiResourceViewBuilder.on_create rst cb).1 =
        { rst with on_create_callback := cb } ∧
      ((JsonApiResourceViewBuilder.on_create rst cb).2 = true ↔
        HTTP_POST ∉ rst.allowed_methods)) ∧
    ((JsonApiResourceViewBuilder.on_update rst cb).1 =
        { rst with on_update_callback := cb } ∧
      ((JsonApiResourceViewBuilder.on_update rst cb).2 = true ↔
        HTTP_PATCH ∉ rst.allowed_methods)) ∧
    ((JsonApiResourceViewBuilder.on_delete rst cb).1 =
        { rst with on_delete_callback := cb } ∧
      ((JsonApiResourceViewBuilder.on_delete rst cb).2 = true ↔
        HTTP_DELETE ∉ rst.allowed_methods)) ∧
    ((JsonApiResourceViewBuilder.on_list rst cb).1 =
        { rst with on_list_callback := cb } ∧
      ((JsonApiResourceViewBuilder.on_list rst cb).2 = true ↔
        HTTP_GET ∉ rst.allowed_methods)) ∧
    ((JsonApiResourceViewBuilder.on_get rst cb).1 =
        { rst with on_get_callback := cb } ∧
      ((JsonApiResourceViewBuilder.on_get rst cb).2 = true ↔
        HTTP_GET ∉ rst.allowed_methods)) := by
  exact ⟨⟨rfl, modelWarn_iff st HTTP_POST⟩, ⟨rfl, modelWarn_iff st HTTP_POST⟩,
    ⟨rfl, modelWarn_iff st HTTP_GET⟩, ⟨rfl, modelWarn_iff st HTTP_PATCH⟩,
    ⟨rfl, modelWarn_iff st HTTP_PATCH⟩, ⟨rfl, modelWarn_iff st HTTP_DELETE⟩,
    ⟨rfl, modelWarn_iff st HTTP_DELETE⟩, ⟨rfl, modelWarn_iff st HTTP_GET⟩,
    ⟨rfl, modelWarn_iff st HTTP_GET⟩, ⟨rfl, resourceWarn_iff rst HTTP_POST⟩,
    ⟨rfl, resourceWarn_iff rst HTTP_PATCH⟩, ⟨rfl, resourceWarn_iff rst HTTP_DELETE⟩,
    ⟨rfl, resourceWarn_iff rst HTTP_GET⟩, ⟨rfl, resourceWarn_iff rst HTTP_GET⟩⟩

end DrfJsonApiUtils
